import Mathlib

/-!
# Verification of the OpenHome room-planner core

Shallow embedding of `src/model/types.ts`, `src/model/state.ts`,
`src/editor/Renderer.ts` and `src/utils/scale.ts`.

Conventions of the embedding:
* JS numbers are modelled by `ℚ` (all quantities in the program are
  centimetre values produced by finite arithmetic).
* Optional TS fields (`field?: T`) are modelled by `Option T`; the TS
  `a ?? b` operator becomes `Option.getD`.
* `Date.now()`-based id generation (`room-${Date.now()}` and similar) is
  modelled by passing the freshly generated id string explicitly as a
  `freshId` argument.
* TS arrays are Lean lists; `filter`/`map`/`find` keep their order.
-/

namespace OpenHome

/-- `WallSide` from types.ts: which wall of a room. -/
inductive WallSide where
  | north
  | south
  | east
  | west
deriving Repr, DecidableEq

/-- `OpeningType` from types.ts: door or window. -/
inductive OpeningType where
  | door
  | window
deriving Repr, DecidableEq

/-- `WallThickness` from types.ts: optional per-wall overrides (cm). -/
structure WallThickness where
  north : Option ℚ
  south : Option ℚ
  east : Option ℚ
  west : Option ℚ
deriving Repr, DecidableEq

/-- A door or window opening in a wall (`WallOpening` from types.ts). -/
structure WallOpening where
  id : String
  roomId : String
  wall : WallSide
  type : OpeningType
  positionCm : ℚ
  widthCm : ℚ
deriving Repr, DecidableEq

/-- `Room` from types.ts.  `locked` is read as a plain boolean by state.ts
(`r.locked`, with `undefined` falsy), so it is modelled as `Bool`. -/
structure Room where
  id : String
  name : String
  xCm : ℚ
  yCm : ℚ
  widthCm : ℚ
  heightCm : ℚ
  wallThickness : Option WallThickness
  locked : Bool
deriving Repr, DecidableEq

/-- `ObjectDef` from types.ts. -/
structure ObjectDef where
  id : String
  name : String
  widthCm : ℚ
  heightCm : ℚ
deriving Repr, DecidableEq

/-- `PlacedObject` from types.ts. -/
structure PlacedObject where
  id : String
  defId : String
  roomId : String
  xCm : ℚ
  yCm : ℚ
  rotationDeg : Option ℚ
  widthCm : Option ℚ
  heightCm : Option ℚ
deriving Repr, DecidableEq

/-- `AppState` from types.ts.  `objectDefs`, `placedObjects` and
`wallOpenings` are optional in the TS interface, hence `Option (List _)`. -/
structure AppState where
  rooms : List Room
  globalWallThicknessCm : ℚ
  selectedRoomIds : List String
  selectedObjectId : Option String
  panX : ℚ
  panY : ℚ
  zoom : ℚ
  objectDefs : Option (List ObjectDef)
  placedObjects : Option (List PlacedObject)
  wallOpenings : Option (List WallOpening)
deriving Repr, DecidableEq

/-- `HistoryState` from types.ts. -/
structure HistoryState where
  past : List AppState
  present : AppState
  future : List AppState
deriving Repr, DecidableEq

/-- `createInitialState` from state.ts. -/
def createInitialState : AppState :=
  { rooms := []
    globalWallThicknessCm := 12
    selectedRoomIds := []
    selectedObjectId := none
    panX := 50
    panY := 50
    zoom := 1
    objectDefs := some []
    placedObjects := some []
    wallOpenings := some [] }

/-- `createInitialHistory` from state.ts. -/
def createInitialHistory : HistoryState :=
  { past := [], present := createInitialState, future := [] }

/-- `recordHistory` from state.ts: push present onto past, install the new
state, clear the redo stack. -/
def recordHistory (history : HistoryState) (newState : AppState) : HistoryState :=
  { past := history.past ++ [history.present]
    present := newState
    future := [] }

/-- `undo` from state.ts.  The source guards on `past.length === 0` and then
reads `past[past.length - 1]` and `past.slice(0, -1)`; `List.getLast?` is
`none` exactly when the list is empty, so the `match` is that guard. -/
def undo (history : HistoryState) : HistoryState :=
  match history.past.getLast? with
  | none => history
  | some previous =>
      { past := history.past.dropLast
        present := previous
        future := history.present :: history.future }

/-- `redo` from state.ts: `future[0]` / `future.slice(1)` behind a
`future.length === 0` guard. -/
def redo (history : HistoryState) : HistoryState :=
  match history.future with
  | [] => history
  | next :: rest =>
      { past := history.past ++ [history.present]
        present := next
        future := rest }

/-- `canUndo` from state.ts. -/
def canUndo (history : HistoryState) : Bool :=
  history.past.length > 0

/-- `canRedo` from state.ts. -/
def canRedo (history : HistoryState) : Bool :=
  history.future.length > 0

/-- `addRoom` from state.ts.  The new room's generated id
(`room-${Date.now()}`) is passed as `freshId`.  The new room is appended and
becomes the (sole) room selection; note that the source spreads `...state`
and does not touch `selectedObjectId`. -/
def addRoom (state : AppState) (name : String) (widthCm heightCm : ℚ)
    (freshId : String) : AppState :=
  let newRoom : Room :=
    { id := freshId, name := name, xCm := 50, yCm := 50
      widthCm := widthCm, heightCm := heightCm
      wallThickness := none, locked := false }
  { state with
    rooms := state.rooms ++ [newRoom]
    selectedRoomIds := [newRoom.id] }

/-- `duplicatePlacedObject` from state.ts.  `offsetCm` defaults to 20 at the
TS call sites; `freshId` stands for the generated `placed-${Date.now()}`. -/
def duplicatePlacedObject (state : AppState) (placedId : String)
    (freshId : String) (offsetCm : ℚ) : AppState :=
  match (state.placedObjects.getD []).find? (fun p => p.id = placedId) with
  | none => state
  | some existing =>
      let copy : PlacedObject :=
        { existing with
          id := freshId
          xCm := existing.xCm + offsetCm
          yCm := existing.yCm + offsetCm }
      { state with placedObjects := some ((state.placedObjects.getD []) ++ [copy]) }

/-- `updatePlacedObjectPosition` from state.ts. -/
def updatePlacedObjectPosition (state : AppState) (placedId : String)
    (xCm yCm : ℚ) : AppState :=
  { state with
    placedObjects := some ((state.placedObjects.getD []).map
      (fun p => if p.id = placedId then { p with xCm := xCm, yCm := yCm } else p)) }

/-- `findRoomAtPosition` from state.ts: first room (in `rooms` order) whose
rectangle contains the centre of the object footprint, else `null`. -/
def findRoomAtPosition (state : AppState) (xCm yCm : ℚ)
    (objectWidthCm objectHeightCm : ℚ) : Option String :=
  let centerX := xCm + objectWidthCm / 2
  let centerY := yCm + objectHeightCm / 2
  (state.rooms.find? (fun room =>
    centerX ≥ room.xCm ∧ centerX ≤ room.xCm + room.widthCm ∧
    centerY ≥ room.yCm ∧ centerY ≤ room.yCm + room.heightCm)).map Room.id

/-- `nudgeSelectedObject` from state.ts: moves the selected placed object by
a delta and re-detects its room, keeping the old `roomId` when
`findRoomAtPosition` returns `null`. -/
def nudgeSelectedObject (state : AppState) (dxCm dyCm : ℚ) : AppState :=
  match state.selectedObjectId with
  | none => state
  | some selId =>
      match (state.placedObjects.getD []).find? (fun p => p.id = selId) with
      | none => state
      | some placed =>
          let objectDef := (state.objectDefs.getD []).find? (fun d => d.id = placed.defId)
          let newX := placed.xCm + dxCm
          let newY := placed.yCm + dyCm
          let newRoomId := findRoomAtPosition state newX newY
            ((objectDef.map ObjectDef.widthCm).getD 0)
            ((objectDef.map ObjectDef.heightCm).getD 0)
          { state with
            placedObjects := some ((state.placedObjects.getD []).map
              (fun p => if p.id = selId then
                { p with xCm := newX, yCm := newY, roomId := newRoomId.getD p.roomId }
              else p)) }

/-- `updatePlacedObjectPositionWithRoomDetection` from state.ts. -/
def updatePlacedObjectPositionWithRoomDetection (state : AppState)
    (placedId : String) (xCm yCm : ℚ) : AppState :=
  match (state.placedObjects.getD []).find? (fun p => p.id = placedId) with
  | none => state
  | some placed =>
      match (state.objectDefs.getD []).find? (fun d => d.id = placed.defId) with
      | none => state
      | some def' =>
          let newRoomId := findRoomAtPosition state xCm yCm def'.widthCm def'.heightCm
          { state with
            placedObjects := some ((state.placedObjects.getD []).map
              (fun p => if p.id = placedId then
                { p with xCm := xCm, yCm := yCm, roomId := newRoomId.getD p.roomId }
              else p)) }

/-- `deleteRoom` from state.ts: filters `rooms` and `selectedRoomIds`;
no other field of the state is touched. -/
def deleteRoom (state : AppState) (roomId : String) : AppState :=
  { state with
    rooms := state.rooms.filter (fun r => r.id ≠ roomId)
    selectedRoomIds := state.selectedRoomIds.filter (fun id => id ≠ roomId) }

/-- `updateRoomPosition` from state.ts. -/
def updateRoomPosition (state : AppState) (roomId : String) (xCm yCm : ℚ) :
    AppState :=
  { state with
    rooms := state.rooms.map
      (fun r => if r.id = roomId then { r with xCm := xCm, yCm := yCm } else r) }

/-- `selectRoom` from state.ts: single selection, clears object selection. -/
def selectRoom (state : AppState) (roomId : Option String) : AppState :=
  { state with
    selectedRoomIds := match roomId with | some r => [r] | none => []
    selectedObjectId := none }

/-- `toggleRoomSelection` from state.ts. -/
def toggleRoomSelection (state : AppState) (roomId : String) : AppState :=
  let isSelected := state.selectedRoomIds.contains roomId
  { state with
    selectedRoomIds :=
      if isSelected then state.selectedRoomIds.filter (fun id => id ≠ roomId)
      else state.selectedRoomIds ++ [roomId]
    selectedObjectId := none }

/-- `addToSelection` from state.ts: early-returns the state unchanged when
the room is already selected. -/
def addToSelection (state : AppState) (roomId : String) : AppState :=
  if state.selectedRoomIds.contains roomId then state
  else
    { state with
      selectedRoomIds := state.selectedRoomIds ++ [roomId]
      selectedObjectId := none }

/-- `clearSelection` from state.ts. -/
def clearSelection (state : AppState) : AppState :=
  { state with selectedRoomIds := [], selectedObjectId := none }

/-- `selectAllRooms` from state.ts. -/
def selectAllRooms (state : AppState) : AppState :=
  { state with
    selectedRoomIds := state.rooms.map Room.id
    selectedObjectId := none }

/-- `selectObject` from state.ts: clears room selection. -/
def selectObject (state : AppState) (objectId : Option String) : AppState :=
  { state with
    selectedRoomIds := []
    selectedObjectId := objectId }

/-- `deleteSelectedObject` from state.ts. -/
def deleteSelectedObject (state : AppState) : AppState :=
  match state.selectedObjectId with
  | none => state
  | some selId =>
      { state with
        placedObjects := some ((state.placedObjects.getD []).filter
          (fun p => p.id ≠ selId))
        selectedObjectId := none }

/-- `getWallLength` from state.ts: width for north/south walls, height for
east/west walls. -/
def getWallLength (room : Room) (wall : WallSide) : ℚ :=
  match wall with
  | .north => room.widthCm
  | .south => room.widthCm
  | .east => room.heightCm
  | .west => room.heightCm

/-- `addWallOpening` from state.ts: appends the opening exactly as given
(no containment validation); `freshId` stands for `opening-${Date.now()}`. -/
def addWallOpening (state : AppState) (roomId : String) (wall : WallSide)
    (type : OpeningType) (positionCm widthCm : ℚ) (freshId : String) : AppState :=
  let opening : WallOpening :=
    { id := freshId, roomId := roomId, wall := wall, type := type
      positionCm := positionCm, widthCm := widthCm }
  { state with wallOpenings := some ((state.wallOpenings.getD []) ++ [opening]) }

/-- `updateWallOpening` from state.ts: overwrites position and/or width of
the matching opening with whatever was supplied (no validation). -/
def updateWallOpening (state : AppState) (openingId : String)
    (positionCm widthCm : Option ℚ) : AppState :=
  { state with
    wallOpenings := some ((state.wallOpenings.getD []).map
      (fun o => if o.id = openingId then
        { o with
          positionCm := positionCm.getD o.positionCm
          widthCm := widthCm.getD o.widthCm }
      else o)) }

/-- `deleteWallOpening` from state.ts. -/
def deleteWallOpening (state : AppState) (openingId : String) : AppState :=
  { state with
    wallOpenings := some ((state.wallOpenings.getD []).filter
      (fun o => o.id ≠ openingId)) }

/-- Per-wall thickness resolution `room.wallThickness?.[wall] ?? g`
(state.ts, `findAdjacentRoom`). -/
def wallThicknessAt (room : Room) (wall : WallSide) (g : ℚ) : ℚ :=
  (room.wallThickness.bind (fun wt =>
    match wall with
    | .north => wt.north
    | .south => wt.south
    | .east => wt.east
    | .west => wt.west)).getD g

/-- `getOppositeWall` from state.ts. -/
def getOppositeWall : WallSide → WallSide
  | .north => .south
  | .south => .north
  | .east => .west
  | .west => .east

/-- `rangesOverlap` from state.ts (`minOverlap` defaults to 1 in TS; the
only caller passes 5). -/
def rangesOverlap (start1 end1 start2 end2 minOverlap : ℚ) :
    Option (ℚ × ℚ) :=
  let overlapStart := max start1 start2
  let overlapEnd := min end1 end2
  if overlapEnd - overlapStart ≥ minOverlap then some (overlapStart, overlapEnd)
  else none

/-- `SharedWallInfo` from state.ts. -/
structure SharedWallInfo where
  otherRoom : Room
  otherWall : WallSide
  overlapStart : ℚ
  overlapEnd : ℚ
deriving Repr, DecidableEq

/-- The per-candidate body of the loop in `findAdjacentRoom` (state.ts):
for one `other` room, the `switch (wall)` block.  Returns the parallel
overlap when the outer-edge/inner-edge coincidence (checked in both
directions, strict 1 cm epsilon) holds and the overlap is at least 5 cm. -/
def adjacentOverlap (g : ℚ) (room : Room) (wall : WallSide) (other : Room) :
    Option (ℚ × ℚ) :=
  let myWallThickness := wallThicknessAt room wall g
  let roomLeft := room.xCm
  let roomRight := room.xCm + room.widthCm
  let roomTop := room.yCm
  let roomBottom := room.yCm + room.heightCm
  let otherWallThickness := wallThicknessAt other (getOppositeWall wall) g
  let otherLeft := other.xCm
  let otherRight := other.xCm + other.widthCm
  let otherTop := other.yCm
  let otherBottom := other.yCm + other.heightCm
  match wall with
  | .north =>
      if |roomTop - myWallThickness - otherBottom| < 1 ∨
          |otherBottom + otherWallThickness - roomTop| < 1 then
        rangesOverlap roomLeft roomRight otherLeft otherRight 5
      else none
  | .south =>
      if |roomBottom + myWallThickness - otherTop| < 1 ∨
          |otherTop - otherWallThickness - roomBottom| < 1 then
        rangesOverlap roomLeft roomRight otherLeft otherRight 5
      else none
  | .east =>
      if |roomRight + myWallThickness - otherLeft| < 1 ∨
          |otherLeft - otherWallThickness - roomRight| < 1 then
        rangesOverlap roomTop roomBottom otherTop otherBottom 5
      else none
  | .west =>
      if |roomLeft - myWallThickness - otherRight| < 1 ∨
          |otherRight + otherWallThickness - roomLeft| < 1 then
        rangesOverlap roomTop roomBottom otherTop otherBottom 5
      else none

/-- Wall start coordinate of the queried room along the wall direction:
`roomLeft` for horizontal walls, `roomTop` for vertical ones. -/
def wallStart (room : Room) (wall : WallSide) : ℚ :=
  match wall with
  | .north => room.xCm
  | .south => room.xCm
  | .east => room.yCm
  | .west => room.yCm

/-- The loop of `findAdjacentRoom` (state.ts) over the room list: skip the
room itself, return the first other room whose walls qualify, translating
the overlap to coordinates relative to this room's wall start. -/
def findAdjacentRoomAux (g : ℚ) (room : Room) (wall : WallSide) :
    List Room → Option SharedWallInfo
  | [] => none
  | other :: rest =>
      if other.id = room.id then findAdjacentRoomAux g room wall rest
      else
        match adjacentOverlap g room wall other with
        | some ov =>
            some { otherRoom := other
                   otherWall := getOppositeWall wall
                   overlapStart := ov.1 - wallStart room wall
                   overlapEnd := ov.2 - wallStart room wall }
        | none => findAdjacentRoomAux g room wall rest

/-- `findAdjacentRoom` from state.ts. -/
def findAdjacentRoom (state : AppState) (room : Room) (wall : WallSide) :
    Option SharedWallInfo :=
  findAdjacentRoomAux state.globalWallThicknessCm room wall state.rooms

/-! Spec-side vocabulary for the shared-wall claim, following the
specification's wording; compared with `findAdjacentRoom` below. -/

/-- The inner coordinate of a room's wall (the room rectangle's edge). -/
def innerEdge (r : Room) (w : WallSide) : ℚ :=
  match w with
  | .north => r.yCm
  | .south => r.yCm + r.heightCm
  | .east => r.xCm + r.widthCm
  | .west => r.xCm

/-- The outer coordinate of a room's wall (inner edge pushed out by that
wall's thickness). -/
def outerEdge (g : ℚ) (r : Room) (w : WallSide) : ℚ :=
  match w with
  | .north => r.yCm - wallThicknessAt r .north g
  | .south => r.yCm + r.heightCm + wallThicknessAt r .south g
  | .east => r.xCm + r.widthCm + wallThicknessAt r .east g
  | .west => r.xCm - wallThicknessAt r .west g

/-- Start of a wall's extent along its own direction. -/
def extentStart (r : Room) (w : WallSide) : ℚ :=
  match w with
  | .north => r.xCm
  | .south => r.xCm
  | .east => r.yCm
  | .west => r.yCm

/-- End of a wall's extent along its own direction. -/
def extentEnd (r : Room) (w : WallSide) : ℚ :=
  match w with
  | .north => r.xCm + r.widthCm
  | .south => r.xCm + r.widthCm
  | .east => r.yCm + r.heightCm
  | .west => r.yCm + r.heightCm

/-- Spec wording of wall adjacency: one room's outer wall edge coincides
with the other room's facing inner edge within a 1 cm epsilon — both
directions checked — and the two walls' extents along the perpendicular
axis overlap by at least 5 cm. -/
def sharesWallSpec (g : ℚ) (room : Room) (wall : WallSide) (other : Room) : Prop :=
  (|outerEdge g room wall - innerEdge other (getOppositeWall wall)| < 1 ∨
   |outerEdge g other (getOppositeWall wall) - innerEdge room wall| < 1) ∧
  5 ≤ min (extentEnd room wall) (extentEnd other wall) -
      max (extentStart room wall) (extentStart other wall)

instance (g : ℚ) (room : Room) (wall : WallSide) (other : Room) :
    Decidable (sharesWallSpec g room wall other) := by
  unfold sharesWallSpec; infer_instance

/-- Spec wording of the returned shared-wall record: the overlap of the two
extents, expressed relative to the queried room's wall start. -/
def sharedWallInfoSpec (room : Room) (wall : WallSide) (other : Room) :
    SharedWallInfo :=
  { otherRoom := other
    otherWall := getOppositeWall wall
    overlapStart := max (extentStart room wall) (extentStart other wall) -
      extentStart room wall
    overlapEnd := min (extentEnd room wall) (extentEnd other wall) -
      extentStart room wall }

/-- `SNAP_TOLERANCE_CM` from Renderer.ts. -/
def SNAP_TOLERANCE_CM : ℚ := 2

/-- `SnapResult` from Renderer.ts. -/
structure SnapResult where
  xCm : ℚ
  yCm : ℚ
  snappedX : Bool
  snappedY : Bool
  xGuideCm : Option ℚ
  yGuideCm : Option ℚ
deriving Repr, DecidableEq

/-- `WallSides` from Renderer.ts: the four resolved wall thicknesses. -/
structure WallSides where
  north : ℚ
  south : ℚ
  east : ℚ
  west : ℚ
deriving Repr, DecidableEq

/-- `getWallThicknessCm` from Renderer.ts. -/
def getWallThicknessCm (room : Room) (globalWallThicknessCm : ℚ) : WallSides :=
  { north := (room.wallThickness.bind WallThickness.north).getD globalWallThicknessCm
    south := (room.wallThickness.bind WallThickness.south).getD globalWallThicknessCm
    east := (room.wallThickness.bind WallThickness.east).getD globalWallThicknessCm
    west := (room.wallThickness.bind WallThickness.west).getD globalWallThicknessCm }

/-- `outerBoundsCm` from Renderer.ts (the `xCm`/`yCm` overrides are always
passed explicitly here). -/
structure OuterBounds where
  left : ℚ
  right : ℚ
  top : ℚ
  bottom : ℚ
  w : WallSides
deriving Repr, DecidableEq

def outerBoundsCm (room : Room) (globalWallThicknessCm xCm yCm : ℚ) :
    OuterBounds :=
  let w := getWallThicknessCm room globalWallThicknessCm
  { left := xCm - w.west
    right := xCm + room.widthCm + w.east
    top := yCm - w.north
    bottom := yCm + room.heightCm + w.south
    w := w }

/-- The body of `trySnapX` in `calculateSnap` (Renderer.ts).  The moving
room's current outer edge is a function of its current inner `sx` (the
thicknesses `w` never change); on success the new inner x and the guide
edge are returned and the caller records the snap. -/
def trySnapX (movingRoom : Room) (w : WallSides) (sx : ℚ)
    (isLeftEdge : Bool) (targetEdgeValueCm : ℚ) : Option (ℚ × ℚ) :=
  let movingValue :=
    if isLeftEdge then sx - w.west else sx + movingRoom.widthCm + w.east
  if |movingValue - targetEdgeValueCm| ≤ SNAP_TOLERANCE_CM then
    some (if isLeftEdge then targetEdgeValueCm + w.west
          else targetEdgeValueCm - (movingRoom.widthCm + w.east),
          targetEdgeValueCm)
  else none

/-- The body of `trySnapY` in `calculateSnap` (Renderer.ts). -/
def trySnapY (movingRoom : Room) (w : WallSides) (sy : ℚ)
    (isTopEdge : Bool) (targetEdgeValueCm : ℚ) : Option (ℚ × ℚ) :=
  let movingValue :=
    if isTopEdge then sy - w.north else sy + movingRoom.heightCm + w.south
  if |movingValue - targetEdgeValueCm| ≤ SNAP_TOLERANCE_CM then
    some (if isTopEdge then targetEdgeValueCm + w.north
          else targetEdgeValueCm - (movingRoom.heightCm + w.south),
          targetEdgeValueCm)
  else none

/-- The X attempt sequence of `calculateSnap` against one other room, in
source order: left→other.right, left→other.left, right→other.left,
right→other.right (short-circuiting on the first success). -/
def snapXAttempts (movingRoom : Room) (w : WallSides) (sx : ℚ)
    (o : OuterBounds) : Option (ℚ × ℚ) :=
  match trySnapX movingRoom w sx true o.right with
  | some v => some v
  | none =>
    match trySnapX movingRoom w sx true o.left with
    | some v => some v
    | none =>
      match trySnapX movingRoom w sx false o.left with
      | some v => some v
      | none => trySnapX movingRoom w sx false o.right

/-- The Y attempt sequence of `calculateSnap` against one other room, in
source order: top→other.bottom, top→other.top, bottom→other.top,
bottom→other.bottom. -/
def snapYAttempts (movingRoom : Room) (w : WallSides) (sy : ℚ)
    (o : OuterBounds) : Option (ℚ × ℚ) :=
  match trySnapY movingRoom w sy true o.bottom with
  | some v => some v
  | none =>
    match trySnapY movingRoom w sy true o.top with
    | some v => some v
    | none =>
      match trySnapY movingRoom w sy false o.top with
      | some v => some v
      | none => trySnapY movingRoom w sy false o.bottom

/-- The mutable loop state of `calculateSnap` (Renderer.ts):
`snappedXCm/snappedYCm/snappedX/snappedY/xGuideCm/yGuideCm`.  The
maintained `movingOuter` record is always `outerBoundsCm` of `(sx, sy)`,
so it is recomputed on demand rather than stored. -/
structure SnapState where
  sx : ℚ
  sy : ℚ
  snappedX : Bool
  snappedY : Bool
  xGuide : Option ℚ
  yGuide : Option ℚ
deriving Repr, DecidableEq

/-- The X half of one loop iteration of `calculateSnap`: the attempts are
guarded by `!snappedX`; a success records the new inner x, the guide and
the flag (the source also refreshes `movingOuter`, which here is always
recomputed from `sx`). -/
def snapStepX (movingRoom : Room) (w : WallSides) (o : OuterBounds)
    (st : SnapState) : SnapState :=
  if st.snappedX then st
  else
    match snapXAttempts movingRoom w st.sx o with
    | some v => { st with sx := v.1, snappedX := true, xGuide := some v.2 }
    | none => st

/-- The Y half of one loop iteration of `calculateSnap`. -/
def snapStepY (movingRoom : Room) (w : WallSides) (o : OuterBounds)
    (st : SnapState) : SnapState :=
  if st.snappedY then st
  else
    match snapYAttempts movingRoom w st.sy o with
    | some v => { st with sy := v.1, snappedY := true, yGuide := some v.2 }
    | none => st

/-- One iteration of the `for (const other of others)` loop in
`calculateSnap`: X attempts first, then Y attempts on the updated state.
(The source `break` once both axes snapped is behaviourally the same as
continuing, since both guards then fail.) -/
def calculateSnapStep (movingRoom : Room) (w : WallSides)
    (globalWallThicknessCm : ℚ) (st : SnapState) (other : Room) : SnapState :=
  let o := outerBoundsCm other globalWallThicknessCm other.xCm other.yCm
  snapStepY movingRoom w o (snapStepX movingRoom w o st)

/-- The four moving-edge/target-edge distances the X attempt sequence
tests, as a predicate: some pair is within the 2 cm tolerance.  The moving
outer edges are taken at inner position `sx`. -/
def xEdgeHit (movingRoom : Room) (w : WallSides) (sx : ℚ) (o : OuterBounds) : Prop :=
  |sx - w.west - o.right| ≤ SNAP_TOLERANCE_CM ∨
  |sx - w.west - o.left| ≤ SNAP_TOLERANCE_CM ∨
  |sx + movingRoom.widthCm + w.east - o.left| ≤ SNAP_TOLERANCE_CM ∨
  |sx + movingRoom.widthCm + w.east - o.right| ≤ SNAP_TOLERANCE_CM

/-- The four moving-edge/target-edge distances the Y attempt sequence
tests. -/
def yEdgeHit (movingRoom : Room) (w : WallSides) (sy : ℚ) (o : OuterBounds) : Prop :=
  |sy - w.north - o.bottom| ≤ SNAP_TOLERANCE_CM ∨
  |sy - w.north - o.top| ≤ SNAP_TOLERANCE_CM ∨
  |sy + movingRoom.heightCm + w.south - o.top| ≤ SNAP_TOLERANCE_CM ∨
  |sy + movingRoom.heightCm + w.south - o.bottom| ≤ SNAP_TOLERANCE_CM

instance (movingRoom : Room) (w : WallSides) (sx : ℚ) (o : OuterBounds) :
    Decidable (xEdgeHit movingRoom w sx o) := by
  unfold xEdgeHit; infer_instance

instance (movingRoom : Room) (w : WallSides) (sy : ℚ) (o : OuterBounds) :
    Decidable (yEdgeHit movingRoom w sy o) := by
  unfold yEdgeHit; infer_instance

/-- `calculateSnap` from Renderer.ts. -/
def calculateSnap (movingRoom : Room) (allRooms : List Room)
    (targetXCm targetYCm globalWallThicknessCm : ℚ) : SnapResult :=
  let others := allRooms.filter (fun r => r.id ≠ movingRoom.id)
  let w := getWallThicknessCm movingRoom globalWallThicknessCm
  let fin := others.foldl (calculateSnapStep movingRoom w globalWallThicknessCm)
    { sx := targetXCm, sy := targetYCm, snappedX := false, snappedY := false
      xGuide := none, yGuide := none }
  { xCm := fin.sx, yCm := fin.sy, snappedX := fin.snappedX
    snappedY := fin.snappedY, xGuideCm := fin.xGuide, yGuideCm := fin.yGuide }

/-- `calculatePlacedObjectSnap` from Renderer.ts (`toleranceCm` defaults to
5 in TS). -/
def calculatePlacedObjectSnap (objWidthCm objHeightCm : ℚ) (room : Room)
    (targetXCm targetYCm toleranceCm : ℚ) : SnapResult :=
  let leftEdge := room.xCm
  let rightEdge := room.xCm + room.widthCm
  let topEdge := room.yCm
  let bottomEdge := room.yCm + room.heightCm
  let distLeft := |targetXCm - leftEdge|
  let distRight := |targetXCm + objWidthCm - rightEdge|
  let distTop := |targetYCm - topEdge|
  let distBottom := |targetYCm + objHeightCm - bottomEdge|
  let xPart : ℚ × Bool × Option ℚ :=
    if distLeft ≤ toleranceCm ∧ distLeft ≤ distRight then
      (leftEdge, true, some leftEdge)
    else if distRight ≤ toleranceCm then
      (rightEdge - objWidthCm, true, some rightEdge)
    else (targetXCm, false, none)
  let yPart : ℚ × Bool × Option ℚ :=
    if distTop ≤ toleranceCm ∧ distTop ≤ distBottom then
      (topEdge, true, some topEdge)
    else if distBottom ≤ toleranceCm then
      (bottomEdge - objHeightCm, true, some bottomEdge)
    else (targetYCm, false, none)
  { xCm := xPart.1, yCm := yPart.1, snappedX := xPart.2.1, snappedY := yPart.2.1
    xGuideCm := xPart.2.2, yGuideCm := yPart.2.2 }

/-- The shape of a persisted/exported document exactly as the loader sees
it: `importStateFromJson` (scale.ts) does `JSON.parse(json) as AppState`
with no checks, so every field an older export may lack is optional here —
including the modern `selectedRoomIds`, the legacy singular
`selectedRoomId`, and the three collections. -/
structure StoredDoc where
  rooms : Option (List Room)
  globalWallThicknessCm : Option ℚ
  selectedRoomIds : Option (List String)
  selectedRoomId : Option String
  selectedObjectId : Option String
  panX : Option ℚ
  panY : Option ℚ
  zoom : Option ℚ
  objectDefs : Option (List ObjectDef)
  placedObjects : Option (List PlacedObject)
  wallOpenings : Option (List WallOpening)
deriving Repr, DecidableEq

/-- `importStateFromJson` from scale.ts: on a successful parse the parsed
document is resolved unchanged (`resolve(parsed)`); a parse failure rejects
with "Invalid JSON file".  The promise is modelled as `Except`, the parse
outcome as `Option StoredDoc`. -/
def importStateFromJson (parseResult : Option StoredDoc) :
    Except String StoredDoc :=
  match parseResult with
  | some parsed => Except.ok parsed
  | none => Except.error "Invalid JSON file"

/-- `loadState` from state.ts: replace the entire state — the identity. -/
def loadState (state : AppState) : AppState :=
  state

end OpenHome

namespace OpenHome

/-- C3: `recordHistory h s2` has present `s2`, past `h.past ++ [h.present]`
and empty future; `undo` after `recordHistory` restores `h.present`; `redo`
after that restores `s2`; `undo` is the identity when past is empty and
`redo` is the identity when future is empty. -/
theorem history_roundtrip (h : HistoryState) (s2 : AppState) :
    (recordHistory h s2).present = s2 ∧
    (recordHistory h s2).past = h.past ++ [h.present] ∧
    (recordHistory h s2).future = [] ∧
    (undo (recordHistory h s2)).present = h.present ∧
    (redo (undo (recordHistory h s2))).present = s2 ∧
    (h.past = [] → undo h = h) ∧
    (h.future = [] → redo h = h) := by
  refine ⟨rfl, rfl, rfl, ?_, ?_, ?_, ?_⟩
  · simp [undo, recordHistory, List.getLast?_append]
  · simp [undo, redo, recordHistory, List.getLast?_append]
  · intro hp
    simp [undo, hp]
  · intro hf
    simp [redo, hf]

/-- Witness for C3 at a concrete history with empty past and future. -/
theorem history_roundtrip_witness :
    undo createInitialHistory = createInitialHistory ∧
    redo createInitialHistory = createInitialHistory :=
  ⟨(history_roundtrip createInitialHistory createInitialState).2.2.2.2.2.1 rfl,
   (history_roundtrip createInitialHistory createInitialState).2.2.2.2.2.2 rfl⟩

/-- Helper: mapping a function that fixes every element of a list is the
identity on that list. -/
theorem map_eq_self_of_fixed {α : Type} (l : List α) (f : α → α)
    (h : ∀ a ∈ l, f a = a) : l.map f = l := by
  induction l with
  | nil => rfl
  | cons a t ih =>
      rw [List.map_cons, h a (by simp), ih (fun b hb => h b (by simp [hb]))]

/-! ## The opening containment invariant (C1) -/

/-- One opening is contained in the wall of every room that carries its
`roomId`: position nonnegative and position + width within the wall length
(`getWallLength`: width for north/south, height for east/west). -/
def openingFits (rooms : List Room) (o : WallOpening) : Prop :=
  ∀ r ∈ rooms, r.id = o.roomId →
    0 ≤ o.positionCm ∧ o.positionCm + o.widthCm ≤ getWallLength r o.wall

/-- The containment invariant over a whole state. -/
def openingsWithinWalls (s : AppState) : Prop :=
  ∀ o ∈ s.wallOpenings.getD [], openingFits s.rooms o

instance (rooms : List Room) (o : WallOpening) : Decidable (openingFits rooms o) := by
  unfold openingFits; infer_instance

instance (s : AppState) : Decidable (openingsWithinWalls s) := by
  unfold openingsWithinWalls; infer_instance

/-! ## Concrete fixtures used by counterexamples and witnesses -/

/-- A 100 cm × 100 cm room at (0,0) with default walls. -/
def roomA : Room :=
  { id := "room-1", name := "A", xCm := 0, yCm := 0, widthCm := 100
    heightCm := 100, wallThickness := none, locked := false }

/-- The initial state with `roomA` added. -/
def stateA : AppState :=
  { createInitialState with rooms := [roomA] }

/-- A second 100 cm × 100 cm room at (0,0) with a distinct id. -/
def roomB : Room :=
  { id := "room-2", name := "B", xCm := 0, yCm := 0, widthCm := 100
    heightCm := 100, wallThickness := none, locked := false }

/-- A door on `roomA`'s north wall, well inside the wall. -/
def openingA : WallOpening :=
  { id := "opening-1", roomId := "room-1", wall := .north, type := .door
    positionCm := 10, widthCm := 80 }

/-- `stateA` with `openingA` present. -/
def stateAOpen : AppState :=
  { stateA with wallOpenings := some [openingA] }

/-- A 10 cm × 10 cm object definition. -/
def tableDef : ObjectDef :=
  { id := "def-1", name := "Table", widthCm := 10, heightCm := 10 }

/-- A placed table inside `roomA` (centre at (90,90)). -/
def placedA : PlacedObject :=
  { id := "placed-1", defId := "def-1", roomId := "room-1", xCm := 85
    yCm := 85, rotationDeg := none, widthCm := none, heightCm := none }

/-- `stateA` with the table definition and one placed table. -/
def stateObj : AppState :=
  { stateA with objectDefs := some [tableDef], placedObjects := some [placedA] }

/-- A door that overflows `roomA`'s 100 cm north wall (90 + 50 > 100). -/
def openingOverflow : WallOpening :=
  { id := "opening-2", roomId := "room-1", wall := .north, type := .door
    positionCm := 90, widthCm := 50 }

/-- A state whose optional collections are all absent (as loaded from an
older persisted document). -/
def stateNoColl : AppState :=
  { createInitialState with
    objectDefs := none, placedObjects := none, wallOpenings := none }

/-- An older exported document: it carries the legacy singular
`selectedRoomId`, lacks `selectedRoomIds`, and lacks the three
collections. -/
def legacyDoc : StoredDoc :=
  { rooms := some [roomA], globalWallThicknessCm := some 12
    selectedRoomIds := none, selectedRoomId := some "room-1"
    selectedObjectId := none, panX := some 50, panY := some 50
    zoom := some 1, objectDefs := none, placedObjects := none
    wallOpenings := none }

/-- `stateAOpen` satisfies the containment invariant (helper shared by the
C1 counterexample and witness). -/
theorem stateAOpen_within : openingsWithinWalls stateAOpen := by
  unfold openingsWithinWalls openingFits
  intro o ho r hr _
  simp only [show stateAOpen.wallOpenings = some [openingA] from rfl,
    Option.getD_some, List.mem_singleton] at ho
  subst ho
  simp only [show stateAOpen.rooms = [roomA] from rfl, List.mem_singleton] at hr
  subst hr
  exact ⟨by norm_num [openingA], by norm_num [openingA, roomA, getWallLength]⟩

/-- C1 counterexample: from a state satisfying the containment invariant,
`addWallOpening` stores a door of width 50 at position 90 on a 100 cm wall
verbatim — nothing is rejected or clamped, and the invariant is broken. -/
theorem addWallOpening_overflow_stored :
    openingsWithinWalls stateAOpen ∧
    ¬ openingsWithinWalls
        (addWallOpening stateAOpen "room-1" .north .door 90 50 "opening-2") := by
  refine ⟨stateAOpen_within, ?_⟩
  unfold openingsWithinWalls openingFits
  intro h
  have hmem : openingOverflow ∈
      (addWallOpening stateAOpen "room-1" .north .door 90 50
        "opening-2").wallOpenings.getD [] := by
    simp [addWallOpening, openingOverflow,
      show stateAOpen.wallOpenings = some [openingA] from rfl]
  have hro : roomA ∈
      (addWallOpening stateAOpen "room-1" .north .door 90 50 "opening-2").rooms := by
    simp [addWallOpening, show stateAOpen.rooms = [roomA] from rfl]
  have hbad := h _ hmem roomA hro rfl
  norm_num [getWallLength, roomA, openingOverflow] at hbad

/-- C1 amended: `addWallOpening` and `updateWallOpening` preserve the
containment invariant only under the precondition that the supplied values
already fit the owning room's wall — the check the `DoorOpeningsPanel` UI
performs before calling them; the store functions themselves validate
nothing. -/
theorem wallOpening_ops_preserve_containment (s : AppState) (roomId : String)
    (wall : WallSide) (ty : OpeningType) (pos wd : ℚ) (freshId openingId : String)
    (newPos newWd : Option ℚ) :
    (openingsWithinWalls s →
      (∀ r ∈ s.rooms, r.id = roomId → 0 ≤ pos ∧ pos + wd ≤ getWallLength r wall) →
      openingsWithinWalls (addWallOpening s roomId wall ty pos wd freshId)) ∧
    (openingsWithinWalls s →
      (∀ o ∈ s.wallOpenings.getD [], o.id = openingId →
        openingFits s.rooms
          { o with positionCm := newPos.getD o.positionCm
                   widthCm := newWd.getD o.widthCm }) →
      openingsWithinWalls (updateWallOpening s openingId newPos newWd)) := by
  constructor
  · intro hinv hfit o ho
    simp only [addWallOpening, Option.getD_some, List.mem_append,
      List.mem_singleton] at ho
    rcases ho with ho | ho
    · exact hinv o ho
    · subst ho
      intro r hr hid
      exact hfit r hr hid
  · intro hinv hfit o ho
    simp only [updateWallOpening, Option.getD_some, List.mem_map] at ho
    obtain ⟨o₀, ho₀, rfl⟩ := ho
    by_cases hid : o₀.id = openingId
    · simp only [hid, if_pos rfl]
      exact hfit o₀ ho₀ hid
    · simp only [if_neg hid]
      exact hinv o₀ ho₀

/-- Witness for the amended C1 at concrete values: adding a fitting door
to `stateAOpen` keeps the invariant, and so does a fitting update. -/
theorem wallOpening_ops_preserve_containment_witness :
    openingsWithinWalls (addWallOpening stateAOpen "room-1" .north .door 0 100 "opening-2") ∧
    openingsWithinWalls (updateWallOpening stateAOpen "opening-1" (some 20) (some 70)) := by
  have hfitAdd : ∀ r ∈ stateAOpen.rooms, r.id = "room-1" →
      (0 : ℚ) ≤ 0 ∧ (0 : ℚ) + 100 ≤ getWallLength r .north := by
    intro r hr _
    simp only [show stateAOpen.rooms = [roomA] from rfl, List.mem_singleton] at hr
    subst hr
    exact ⟨le_refl 0, by norm_num [getWallLength, roomA]⟩
  have hfitUpd : ∀ o ∈ stateAOpen.wallOpenings.getD [], o.id = "opening-1" →
      openingFits stateAOpen.rooms
        { o with positionCm := (some (20 : ℚ)).getD o.positionCm
                 widthCm := (some (70 : ℚ)).getD o.widthCm } := by
    intro o ho _
    simp only [show stateAOpen.wallOpenings = some [openingA] from rfl,
      Option.getD_some, List.mem_singleton] at ho
    subst ho
    unfold openingFits
    intro r hr _
    simp only [show stateAOpen.rooms = [roomA] from rfl, List.mem_singleton] at hr
    subst hr
    exact ⟨by norm_num [openingA], by norm_num [openingA, roomA, getWallLength]⟩
  exact
    ⟨(wallOpening_ops_preserve_containment stateAOpen "room-1" .north .door 0 100
        "opening-2" "opening-1" (some 20) (some 70)).1 stateAOpen_within hfitAdd,
     (wallOpening_ops_preserve_containment stateAOpen "room-1" .north .door 0 100
        "opening-2" "opening-1" (some 20) (some 70)).2 stateAOpen_within hfitUpd⟩

/-- C2 counterexample: deleting `roomA` removes the room but keeps the wall
opening that references it — no cascade. -/
theorem deleteRoom_retains_openings :
    (deleteRoom stateAOpen "room-1").rooms = [] ∧
    (deleteRoom stateAOpen "room-1").wallOpenings = some [openingA] ∧
    openingA.roomId = "room-1" := by
  decide

/-- C2 amended: `deleteRoom` removes exactly the room with the given id
from `rooms` and the id from `selectedRoomIds`; wall openings (including
those referencing the deleted room), placed objects, object definitions and
the object selection are all retained unchanged. -/
theorem deleteRoom_effect (s : AppState) (roomId : String) :
    (∀ r : Room, r ∈ (deleteRoom s roomId).rooms ↔ r ∈ s.rooms ∧ r.id ≠ roomId) ∧
    (∀ i : String, i ∈ (deleteRoom s roomId).selectedRoomIds ↔
      i ∈ s.selectedRoomIds ∧ i ≠ roomId) ∧
    (deleteRoom s roomId).wallOpenings = s.wallOpenings ∧
    (deleteRoom s roomId).placedObjects = s.placedObjects ∧
    (deleteRoom s roomId).objectDefs = s.objectDefs ∧
    (deleteRoom s roomId).selectedObjectId = s.selectedObjectId ∧
    (deleteRoom s roomId).globalWallThicknessCm = s.globalWallThicknessCm := by
  refine ⟨?_, ?_, rfl, rfl, rfl, rfl, rfl⟩
  · intro r
    simp [deleteRoom, List.mem_filter]
  · intro i
    simp [deleteRoom, List.mem_filter]

/-- Witness for the amended C2: deleting `roomA` from `stateAOpen` keeps
the opening collection and drops the room. -/
theorem deleteRoom_effect_witness :
    (deleteRoom stateAOpen "room-1").wallOpenings = stateAOpen.wallOpenings ∧
    ¬ (roomA ∈ (deleteRoom stateAOpen "room-1").rooms) :=
  ⟨(deleteRoom_effect stateAOpen "room-1").2.2.1,
   fun hmem => ((deleteRoom_effect stateAOpen "room-1").1 roomA).mp hmem
     |>.2 rfl⟩

/-- C6 counterexample: the loader hands back an old document unchanged —
the legacy `selectedRoomId` is not migrated into `selectedRoomIds`, and the
absent collections stay absent instead of defaulting to empty. -/
theorem importState_no_migration :
    importStateFromJson (some legacyDoc) = Except.ok legacyDoc ∧
    legacyDoc.selectedRoomId = some "room-1" ∧
    legacyDoc.selectedRoomIds = none ∧
    legacyDoc.wallOpenings = none ∧
    legacyDoc.placedObjects = none ∧
    legacyDoc.objectDefs = none :=
  ⟨rfl, rfl, rfl, rfl, rfl, rfl⟩

/-- C6 amended: the load path performs no migration or defaulting at all —
`importStateFromJson` resolves the parsed document verbatim (rejecting only
parse failures) and the store-level `loadState` is the identity; absent
collections are instead tolerated downstream by the `?? []` reads in each
state operation. -/
theorem loader_identity (doc : StoredDoc) (s : AppState) :
    importStateFromJson (some doc) = Except.ok doc ∧
    importStateFromJson none = Except.error "Invalid JSON file" ∧
    loadState s = s :=
  ⟨rfl, rfl, rfl⟩

/-- Witness for the amended C6 at the legacy document. -/
theorem loader_identity_witness :
    importStateFromJson (some legacyDoc) = Except.ok legacyDoc ∧
    loadState createInitialState = createInitialState :=
  ⟨(loader_identity legacyDoc createInitialState).1,
   (loader_identity legacyDoc createInitialState).2.2⟩

/-- C7 counterexample: on a state whose `wallOpenings` collection is absent,
`deleteWallOpening` with an id that matches nothing still returns a state
that differs from its input (the absent collection is materialised as
`some []`). -/
theorem deleteWallOpening_materializes_collection :
    stateNoColl.wallOpenings = none ∧
    (deleteWallOpening stateNoColl "missing").wallOpenings = some [] ∧
    deleteWallOpening stateNoColl "missing" ≠ stateNoColl := by
  decide

/-- C7 amended: operations invoked with an unknown id are silent no-ops —
they never throw and return the input state itself — provided the touched
optional collection is present; when it is absent the only change is that
the collection is replaced by an (equally empty) `some []`. -/
theorem unknownId_noop (s : AppState) (id : String) (x y off : ℚ)
    (freshId : String) :
    ((∀ r ∈ s.rooms, r.id ≠ id) → updateRoomPosition s id x y = s) ∧
    ((∀ p ∈ s.placedObjects.getD [], p.id ≠ id) →
      duplicatePlacedObject s id freshId off = s) ∧
    (∀ l, s.wallOpenings = some l → (∀ o ∈ l, o.id ≠ id) →
      deleteWallOpening s id = s) := by
  refine ⟨?_, ?_, ?_⟩
  · intro hall
    have hmap : s.rooms.map
        (fun r => if r.id = id then { r with xCm := x, yCm := y } else r) = s.rooms :=
      map_eq_self_of_fixed _ _ (fun r hr => if_neg (hall r hr))
    simp [updateRoomPosition, hmap]
  · intro hall
    have hfind : (s.placedObjects.getD []).find? (fun p => p.id = id) = none :=
      List.find?_eq_none.mpr (fun p hp => by simpa using hall p hp)
    simp [duplicatePlacedObject, hfind]
  · intro l hl hall
    have hf : l.filter (fun o => o.id ≠ id) = l :=
      List.filter_eq_self.mpr (fun o ho => by simpa using hall o ho)
    have hres : deleteWallOpening s id = { s with wallOpenings := some l } := by
      unfold deleteWallOpening
      rw [hl, Option.getD_some, hf]
    rw [hres, ← hl]

/-- Witness for the amended C7 on the initial state (all collections
present and empty) with an id that matches nothing. -/
theorem unknownId_noop_witness :
    updateRoomPosition createInitialState "missing" 1 2 = createInitialState ∧
    duplicatePlacedObject createInitialState "missing" "placed-9" 20 = createInitialState ∧
    deleteWallOpening createInitialState "missing" = createInitialState :=
  ⟨(unknownId_noop createInitialState "missing" 1 2 20 "placed-9").1 (by decide),
   (unknownId_noop createInitialState "missing" 1 2 20 "placed-9").2.1 (by decide),
   (unknownId_noop createInitialState "missing" 1 2 20 "placed-9").2.2 [] rfl (by decide)⟩

/-- Helper: `findRoomAtPosition` returns `none` when no room's rectangle
contains the object centre. -/
theorem findRoomAtPosition_eq_none (s : AppState) (x y w h : ℚ)
    (hnone : ∀ r ∈ s.rooms,
      ¬(x + w / 2 ≥ r.xCm ∧ x + w / 2 ≤ r.xCm + r.widthCm ∧
        y + h / 2 ≥ r.yCm ∧ y + h / 2 ≤ r.yCm + r.heightCm)) :
    findRoomAtPosition s x y w h = none := by
  have hfind : s.rooms.find? (fun room =>
      decide (x + w / 2 ≥ room.xCm ∧ x + w / 2 ≤ room.xCm + room.widthCm ∧
        y + h / 2 ≥ room.yCm ∧ y + h / 2 ≤ room.yCm + room.heightCm)) = none :=
    List.find?_eq_none.mpr (fun r hr => by
      simp only [decide_eq_true_eq]
      exact hnone r hr)
  unfold findRoomAtPosition
  simp [hfind]
  intro r hr h1 h2 h3
  by_contra hlt
  exact hnone r hr ⟨h1, h2, h3, not_lt.mp hlt⟩

/-- C9 counterexample: moving the placed table to (200,200) — outside every
room — via `updatePlacedObjectPositionWithRoomDetection` keeps the old
`roomId` "room-1" instead of clearing the association (`roomId` is a
required string; there is no "none"). -/
theorem roomDetection_retains_roomId :
    findRoomAtPosition stateObj 200 200 tableDef.widthCm tableDef.heightCm = none ∧
    (updatePlacedObjectPositionWithRoomDetection stateObj "placed-1" 200 200).placedObjects =
      some [{ placedA with xCm := 200, yCm := 200 }] ∧
    ({ placedA with xCm := 200, yCm := 200 } : PlacedObject).roomId = "room-1" := by
  have hnone : findRoomAtPosition stateObj 200 200 tableDef.widthCm tableDef.heightCm = none := by
    apply findRoomAtPosition_eq_none
    intro r hr
    simp only [show stateObj.rooms = [roomA] from rfl, List.mem_singleton] at hr
    subst hr
    norm_num [roomA, tableDef]
  refine ⟨hnone, ?_, rfl⟩
  simp only [updatePlacedObjectPositionWithRoomDetection,
    show (stateObj.placedObjects.getD []).find? (fun p => p.id = "placed-1") =
      some placedA from rfl,
    show (stateObj.objectDefs.getD []).find? (fun d => d.id = placedA.defId) =
      some tableDef from rfl,
    hnone]
  simp [show stateObj.placedObjects = some [placedA] from rfl, placedA]

/-- C9 amended: `updatePlacedObjectPositionWithRoomDetection` recomputes
`roomId` via `findRoomAtPosition` (the first room containing the object's
centre, computed from the definition's size), but falls back to the
object's previous `roomId` when no room contains the centre;
`duplicatePlacedObject` copies the source object's `roomId` verbatim with
no recomputation; `updatePlacedObjectPosition` changes no `roomId` at
all. -/
theorem placedObject_room_recompute (s : AppState) (pid freshId : String)
    (x y off : ℚ) (p : PlacedObject) (d : ObjectDef)
    (hp : (s.placedObjects.getD []).find? (fun q => q.id = pid) = some p)
    (hd : (s.objectDefs.getD []).find? (fun q => q.id = p.defId) = some d) :
    (updatePlacedObjectPositionWithRoomDetection s pid x y).placedObjects =
      some ((s.placedObjects.getD []).map (fun q =>
        if q.id = pid then
          { q with xCm := x
                   yCm := y
                   roomId := (findRoomAtPosition s x y d.widthCm d.heightCm).getD q.roomId }
        else q)) ∧
    (duplicatePlacedObject s pid freshId off).placedObjects =
      some ((s.placedObjects.getD []) ++
        [{ p with id := freshId, xCm := p.xCm + off, yCm := p.yCm + off }]) ∧
    ((updatePlacedObjectPosition s pid x y).placedObjects.getD []).map
        PlacedObject.roomId =
      (s.placedObjects.getD []).map PlacedObject.roomId := by
  refine ⟨?_, ?_, ?_⟩
  · simp only [updatePlacedObjectPositionWithRoomDetection, hp, hd]
  · simp only [duplicatePlacedObject, hp]
  · simp only [updatePlacedObjectPosition, Option.getD_some, List.map_map]
    apply List.map_congr_left
    intro q _
    by_cases hq : q.id = pid <;> simp [hq]

/-- Witness for the amended C9 at the concrete table state. -/
theorem placedObject_room_recompute_witness :
    (duplicatePlacedObject stateObj "placed-1" "placed-2" 20).placedObjects =
      some ((stateObj.placedObjects.getD []) ++
        [{ placedA with id := "placed-2"
                        xCm := placedA.xCm + 20
                        yCm := placedA.yCm + 20 }]) :=
  (placedObject_room_recompute stateObj "placed-1" "placed-2" 200 200 20
    placedA tableDef rfl rfl).2.1

/-- C10: `calculatePlacedObjectSnap` resolves each axis by nearest edge:
when both opposite edges are in tolerance it snaps to the closer one,
preferring left (resp. top) on ties; the snapped coordinate puts the
object's edge exactly on the room's inner edge; an axis with no edge in
tolerance returns the candidate unchanged with its flag false. -/
theorem placedObjectSnap_nearest_edge (objW objH : ℚ) (room : Room)
    (tx ty tol : ℚ) :
    (|tx - room.xCm| ≤ tol →
      |tx - room.xCm| ≤ |tx + objW - (room.xCm + room.widthCm)| →
      (calculatePlacedObjectSnap objW objH room tx ty tol).xCm = room.xCm ∧
      (calculatePlacedObjectSnap objW objH room tx ty tol).snappedX = true) ∧
    (|tx + objW - (room.xCm + room.widthCm)| ≤ tol →
      |tx + objW - (room.xCm + room.widthCm)| < |tx - room.xCm| →
      (calculatePlacedObjectSnap objW objH room tx ty tol).xCm =
        room.xCm + room.widthCm - objW ∧
      (calculatePlacedObjectSnap objW objH room tx ty tol).snappedX = true) ∧
    (tol < |tx - room.xCm| → tol < |tx + objW - (room.xCm + room.widthCm)| →
      (calculatePlacedObjectSnap objW objH room tx ty tol).xCm = tx ∧
      (calculatePlacedObjectSnap objW objH room tx ty tol).snappedX = false) ∧
    (|ty - room.yCm| ≤ tol →
      |ty - room.yCm| ≤ |ty + objH - (room.yCm + room.heightCm)| →
      (calculatePlacedObjectSnap objW objH room tx ty tol).yCm = room.yCm ∧
      (calculatePlacedObjectSnap objW objH room tx ty tol).snappedY = true) ∧
    (|ty + objH - (room.yCm + room.heightCm)| ≤ tol →
      |ty + objH - (room.yCm + room.heightCm)| < |ty - room.yCm| →
      (calculatePlacedObjectSnap objW objH room tx ty tol).yCm =
        room.yCm + room.heightCm - objH ∧
      (calculatePlacedObjectSnap objW objH room tx ty tol).snappedY = true) ∧
    (tol < |ty - room.yCm| → tol < |ty + objH - (room.yCm + room.heightCm)| →
      (calculatePlacedObjectSnap objW objH room tx ty tol).yCm = ty ∧
      (calculatePlacedObjectSnap objW objH room tx ty tol).snappedY = false) := by
  refine ⟨?_, ?_, ?_, ?_, ?_, ?_⟩
  · intro h1 h2
    simp [calculatePlacedObjectSnap, h1, h2]
  · intro h1 h2
    simp [calculatePlacedObjectSnap, h1, h2.not_le]
  · intro h1 h2
    simp [calculatePlacedObjectSnap, h1.not_le, h2.not_le]
  · intro h1 h2
    simp [calculatePlacedObjectSnap, h1, h2]
  · intro h1 h2
    simp [calculatePlacedObjectSnap, h1, h2.not_le]
  · intro h1 h2
    simp [calculatePlacedObjectSnap, h1.not_le, h2.not_le]

/-- Witness for C10: with a 10×10 object in `roomA` and tolerance 5, a
candidate at (3, 96) snaps its left edge onto x = 0 while the Y axis (both
distances above tolerance) is returned unchanged and unsnapped. -/
theorem placedObjectSnap_nearest_edge_witness :
    (calculatePlacedObjectSnap 10 10 roomA 3 96 5).xCm = 0 ∧
    (calculatePlacedObjectSnap 10 10 roomA 3 96 5).snappedX = true ∧
    (calculatePlacedObjectSnap 10 10 roomA 3 96 5).yCm = 96 ∧
    (calculatePlacedObjectSnap 10 10 roomA 3 96 5).snappedY = false := by
  have h := placedObjectSnap_nearest_edge 10 10 roomA 3 96 5
  have hx := h.1 (by norm_num [roomA]) (by norm_num [roomA])
  have hy := h.2.2.2.2.2 (by norm_num [roomA]) (by norm_num [roomA])
  refine ⟨?_, hx.2, hy.1, hy.2⟩
  rw [hx.1]
  rfl

/-- C8: the selection-exclusivity invariant is broken by `addRoom`, which
installs the new room as the selection while leaving `selectedObjectId`
set — contradicting the `types.ts` documentation that the two selections
are mutually exclusive.  Evaluated at the failing input: select an object
on the initial state, then add a room. -/
theorem addRoom_keeps_object_selection :
    (addRoom (selectObject createInitialState (some "obj-1")) "Room" 100 100
      "room-9").selectedRoomIds = ["room-9"] ∧
    (addRoom (selectObject createInitialState (some "obj-1")) "Room" 100 100
      "room-9").selectedObjectId = some "obj-1" :=
  ⟨rfl, rfl⟩

/-- Helper: the wall-start offset used by `findAdjacentRoomAux` agrees
with the spec-side extent start. -/
theorem wallStart_eq_extentStart (room : Room) (wall : WallSide) :
    wallStart room wall = extentStart room wall := by
  cases wall <;> rfl

/-- Helper: the per-candidate check of `findAdjacentRoom` is exactly the
spec-side adjacency condition, returning the overlap of the two extents. -/
theorem adjacentOverlap_eq (g : ℚ) (room : Room) (wall : WallSide) (other : Room) :
    adjacentOverlap g room wall other =
      if sharesWallSpec g room wall other then
        some (max (extentStart room wall) (extentStart other wall),
              min (extentEnd room wall) (extentEnd other wall))
      else none := by
  cases wall <;>
    · simp only [adjacentOverlap, rangesOverlap, sharesWallSpec, outerEdge,
        innerEdge, extentStart, extentEnd, getOppositeWall]
      split_ifs <;> simp_all

/-- Helper: the loop of `findAdjacentRoom` returns the first qualifying
room of the list in order, mapped to the spec-side shared-wall record. -/
theorem findAdjacentRoomAux_eq (g : ℚ) (room : Room) (wall : WallSide)
    (l : List Room) :
    findAdjacentRoomAux g room wall l =
      (l.find? (fun other =>
        other.id ≠ room.id ∧ sharesWallSpec g room wall other)).map
        (sharedWallInfoSpec room wall) := by
  induction l with
  | nil => rfl
  | cons other rest ih =>
      by_cases hid : other.id = room.id
      · have hfalse : decide (other.id ≠ room.id ∧
            sharesWallSpec g room wall other) = false := by
          simp [hid]
        simp only [findAdjacentRoomAux, if_pos hid, List.find?, hfalse]
        exact ih
      · rcases hov : adjacentOverlap g room wall other with _ | ov
        · have hnot : ¬ sharesWallSpec g room wall other := by
            intro hs
            rw [adjacentOverlap_eq, if_pos hs] at hov
            exact Option.some_ne_none _ hov
          have hfalse : decide (other.id ≠ room.id ∧
              sharesWallSpec g room wall other) = false := by
            simp [hnot]
          simp only [findAdjacentRoomAux, if_neg hid, hov, List.find?, hfalse]
          exact ih
        · have hyes : sharesWallSpec g room wall other ∧
              ov = (max (extentStart room wall) (extentStart other wall),
                    min (extentEnd room wall) (extentEnd other wall)) := by
            rw [adjacentOverlap_eq] at hov
            by_cases hs : sharesWallSpec g room wall other
            · rw [if_pos hs] at hov
              exact ⟨hs, (Option.some_inj.mp hov).symm⟩
            · rw [if_neg hs] at hov
              simp at hov
          have htrue : decide (other.id ≠ room.id ∧
              sharesWallSpec g room wall other) = true := by
            simp [hid, hyes.1]
          simp only [findAdjacentRoomAux, if_neg hid, hov, List.find?, htrue]
          rw [hyes.2]
          simp [sharedWallInfoSpec, wallStart_eq_extentStart]

/-- C5: `findAdjacentRoom` returns, for the first other room in iteration
order whose facing wall coincides with this wall within the 1 cm epsilon
(both directions) and overlaps it by at least 5 cm along the perpendicular
axis, the shared-wall record with the overlap expressed relative to the
queried room's wall start — and `none` when no other room qualifies. -/
theorem findAdjacentRoom_first_qualifying (s : AppState) (room : Room)
    (wall : WallSide) :
    findAdjacentRoom s room wall =
      (s.rooms.find? (fun other =>
        other.id ≠ room.id ∧
        sharesWallSpec s.globalWallThicknessCm room wall other)).map
        (sharedWallInfoSpec room wall) :=
  findAdjacentRoomAux_eq s.globalWallThicknessCm room wall s.rooms

/-- Witness for C5 on the one-room state: the room is skipped as its own
neighbour (same id) and the query returns `none`. -/
theorem findAdjacentRoom_first_qualifying_witness :
    findAdjacentRoom stateA roomA .north =
      (stateA.rooms.find? (fun other =>
        other.id ≠ roomA.id ∧
        sharesWallSpec stateA.globalWallThicknessCm roomA .north other)).map
        (sharedWallInfoSpec roomA .north) ∧
    findAdjacentRoom stateA roomA .north = none := by
  have h := findAdjacentRoom_first_qualifying stateA roomA .north
  exact ⟨h, by rw [h]; rfl⟩

/-! ## Lemmas on the room-snap loop (C4) -/

/-- Helper: the X attempt sequence succeeds exactly when one of the four
tested edge distances is within tolerance. -/
theorem snapXAttempts_isSome (mr : Room) (w : WallSides) (sx : ℚ)
    (o : OuterBounds) :
    (snapXAttempts mr w sx o).isSome = true ↔ xEdgeHit mr w sx o := by
  unfold snapXAttempts trySnapX xEdgeHit
  by_cases h1 : |sx - w.west - o.right| ≤ SNAP_TOLERANCE_CM <;>
  by_cases h2 : |sx - w.west - o.left| ≤ SNAP_TOLERANCE_CM <;>
  by_cases h3 : |sx + mr.widthCm + w.east - o.left| ≤ SNAP_TOLERANCE_CM <;>
  by_cases h4 : |sx + mr.widthCm + w.east - o.right| ≤ SNAP_TOLERANCE_CM <;>
  simp [h1, h2, h3, h4]

/-- Helper: the Y attempt sequence succeeds exactly when one of the four
tested edge distances is within tolerance. -/
theorem snapYAttempts_isSome (mr : Room) (w : WallSides) (sy : ℚ)
    (o : OuterBounds) :
    (snapYAttempts mr w sy o).isSome = true ↔ yEdgeHit mr w sy o := by
  unfold snapYAttempts trySnapY yEdgeHit
  by_cases h1 : |sy - w.north - o.bottom| ≤ SNAP_TOLERANCE_CM <;>
  by_cases h2 : |sy - w.north - o.top| ≤ SNAP_TOLERANCE_CM <;>
  by_cases h3 : |sy + mr.heightCm + w.south - o.top| ≤ SNAP_TOLERANCE_CM <;>
  by_cases h4 : |sy + mr.heightCm + w.south - o.bottom| ≤ SNAP_TOLERANCE_CM <;>
  simp [h1, h2, h3, h4]

/-- Helper: the X half of a loop step never touches the Y fields. -/
theorem snapStepX_y_fields (mr : Room) (w : WallSides) (o : OuterBounds)
    (st : SnapState) :
    (snapStepX mr w o st).sy = st.sy ∧
    (snapStepX mr w o st).snappedY = st.snappedY ∧
    (snapStepX mr w o st).yGuide = st.yGuide := by
  unfold snapStepX
  split_ifs
  · exact ⟨rfl, rfl, rfl⟩
  · cases hx : snapXAttempts mr w st.sx o
    · exact ⟨rfl, rfl, rfl⟩
    · exact ⟨rfl, rfl, rfl⟩

/-- Helper: the Y half of a loop step never touches the X fields. -/
theorem snapStepY_x_fields (mr : Room) (w : WallSides) (o : OuterBounds)
    (st : SnapState) :
    (snapStepY mr w o st).sx = st.sx ∧
    (snapStepY mr w o st).snappedX = st.snappedX ∧
    (snapStepY mr w o st).xGuide = st.xGuide := by
  unfold snapStepY
  split_ifs
  · exact ⟨rfl, rfl, rfl⟩
  · cases hy : snapYAttempts mr w st.sy o
    · exact ⟨rfl, rfl, rfl⟩
    · exact ⟨rfl, rfl, rfl⟩

/-- Helper: once the X axis is snapped the X half is the identity. -/
theorem snapStepX_of_snapped (mr : Room) (w : WallSides) (o : OuterBounds)
    (st : SnapState) (h : st.snappedX = true) : snapStepX mr w o st = st := by
  unfold snapStepX
  rw [if_pos h]

/-- Helper: once the Y axis is snapped the Y half is the identity. -/
theorem snapStepY_of_snapped (mr : Room) (w : WallSides) (o : OuterBounds)
    (st : SnapState) (h : st.snappedY = true) : snapStepY mr w o st = st := by
  unfold snapStepY
  rw [if_pos h]

/-- Helper: a failed X attempt sequence leaves the X coordinate alone. -/
theorem snapStepX_sx_of_none (mr : Room) (w : WallSides) (o : OuterBounds)
    (st : SnapState) (hx : snapXAttempts mr w st.sx o = none) :
    (snapStepX mr w o st).sx = st.sx := by
  unfold snapStepX
  split_ifs
  · rfl
  · rw [hx]

/-- Helper: a failed Y attempt sequence leaves the Y coordinate alone. -/
theorem snapStepY_sy_of_none (mr : Room) (w : WallSides) (o : OuterBounds)
    (st : SnapState) (hy : snapYAttempts mr w st.sy o = none) :
    (snapStepY mr w o st).sy = st.sy := by
  unfold snapStepY
  split_ifs
  · rfl
  · rw [hy]

/-- Helper: the flag after the X half. -/
theorem snapStepX_snappedX (mr : Room) (w : WallSides) (o : OuterBounds)
    (st : SnapState) :
    (snapStepX mr w o st).snappedX =
      (st.snappedX || (snapXAttempts mr w st.sx o).isSome) := by
  unfold snapStepX
  split_ifs with h
  · simp [h]
  · cases hx : snapXAttempts mr w st.sx o
    · simp
    · simp

/-- Helper: the flag after the Y half. -/
theorem snapStepY_snappedY (mr : Room) (w : WallSides) (o : OuterBounds)
    (st : SnapState) :
    (snapStepY mr w o st).snappedY =
      (st.snappedY || (snapYAttempts mr w st.sy o).isSome) := by
  unfold snapStepY
  split_ifs with h
  · simp [h]
  · cases hy : snapYAttempts mr w st.sy o
    · simp
    · simp

/-- Helper: a successful X attempt sequence installs the snapped value. -/
theorem snapStepX_of_some (mr : Room) (w : WallSides) (o : OuterBounds)
    (st : SnapState) (v : ℚ × ℚ) (h : st.snappedX = false)
    (hx : snapXAttempts mr w st.sx o = some v) :
    snapStepX mr w o st =
      { st with sx := v.1, snappedX := true, xGuide := some v.2 } := by
  unfold snapStepX
  rw [if_neg (by simp [h]), hx]

/-- Helper: a successful Y attempt sequence installs the snapped value. -/
theorem snapStepY_of_some (mr : Room) (w : WallSides) (o : OuterBounds)
    (st : SnapState) (v : ℚ × ℚ) (h : st.snappedY = false)
    (hy : snapYAttempts mr w st.sy o = some v) :
    snapStepY mr w o st =
      { st with sy := v.1, snappedY := true, yGuide := some v.2 } := by
  unfold snapStepY
  rw [if_neg (by simp [h]), hy]

/-- Helper: one loop iteration is the Y half after the X half. -/
theorem calculateSnapStep_eq (mr : Room) (w : WallSides) (g : ℚ)
    (st : SnapState) (other : Room) :
    calculateSnapStep mr w g st other =
      snapStepY mr w (outerBoundsCm other g other.xCm other.yCm)
        (snapStepX mr w (outerBoundsCm other g other.xCm other.yCm) st) := rfl

/-- Helper: once snapped, the X flag and coordinate survive the rest of the
loop. -/
theorem foldl_snapX_stable (mr : Room) (w : WallSides) (g : ℚ)
    (l : List Room) :
    ∀ st : SnapState, st.snappedX = true →
      (List.foldl (calculateSnapStep mr w g) st l).snappedX = true ∧
      (List.foldl (calculateSnapStep mr w g) st l).sx = st.sx := by
  induction l with
  | nil => exact fun st h => ⟨h, rfl⟩
  | cons other rest ih =>
      intro st h
      rw [List.foldl_cons, calculateSnapStep_eq,
        snapStepX_of_snapped mr w _ st h]
      have hy := snapStepY_x_fields mr w
        (outerBoundsCm other g other.xCm other.yCm) st
      obtain ⟨ih1, ih2⟩ := ih _ (by rw [hy.2.1, h])
      exact ⟨ih1, by rw [ih2, hy.1]⟩

/-- Helper: once snapped, the Y flag and coordinate survive the rest of the
loop. -/
theorem foldl_snapY_stable (mr : Room) (w : WallSides) (g : ℚ)
    (l : List Room) :
    ∀ st : SnapState, st.snappedY = true →
      (List.foldl (calculateSnapStep mr w g) st l).snappedY = true ∧
      (List.foldl (calculateSnapStep mr w g) st l).sy = st.sy := by
  induction l with
  | nil => exact fun st h => ⟨h, rfl⟩
  | cons other rest ih =>
      intro st h
      have hx := snapStepX_y_fields mr w
        (outerBoundsCm other g other.xCm other.yCm) st
      rw [List.foldl_cons, calculateSnapStep_eq,
        snapStepY_of_snapped mr w _ _ (by rw [hx.2.1, h])]
      obtain ⟨ih1, ih2⟩ := ih _ (by rw [hx.2.1, h])
      exact ⟨ih1, by rw [ih2, hx.1]⟩

/-- Helper: starting unsnapped, the loop sets the X flag exactly when some
remaining room has an edge pair within tolerance of the (unchanged) moving
X edges, and leaves the X coordinate alone when it never fires. -/
theorem foldl_x_char (mr : Room) (w : WallSides) (g : ℚ) (l : List Room) :
    ∀ st : SnapState, st.snappedX = false →
      ((List.foldl (calculateSnapStep mr w g) st l).snappedX = true ↔
        ∃ other ∈ l, xEdgeHit mr w st.sx
          (outerBoundsCm other g other.xCm other.yCm)) ∧
      ((List.foldl (calculateSnapStep mr w g) st l).snappedX = false →
        (List.foldl (calculateSnapStep mr w g) st l).sx = st.sx) := by
  induction l with
  | nil =>
      intro st h
      refine ⟨by simp [h], fun _ => rfl⟩
  | cons other rest ih =>
      intro st h
      rw [List.foldl_cons, calculateSnapStep_eq]
      cases hx : snapXAttempts mr w st.sx
          (outerBoundsCm other g other.xCm other.yCm) with
      | some v =>
          rw [snapStepX_of_some mr w _ st v h hx]
          have hsnapped : (snapStepY mr w
              (outerBoundsCm other g other.xCm other.yCm)
              { st with sx := v.1, snappedX := true, xGuide := some v.2 }).snappedX =
                true := by
            rw [(snapStepY_x_fields mr w _ _).2.1]
          obtain ⟨hst, _⟩ := foldl_snapX_stable mr w g rest _ hsnapped
          refine ⟨?_, fun habs => by rw [hst] at habs; cases habs⟩
          rw [hst]
          simp only [true_iff]
          exact ⟨other, by simp,
            (snapXAttempts_isSome mr w st.sx _).mp (by rw [hx]; rfl)⟩
      | none =>
          have h1 : (snapStepY mr w (outerBoundsCm other g other.xCm other.yCm)
              (snapStepX mr w (outerBoundsCm other g other.xCm other.yCm) st)).snappedX =
                false := by
            rw [(snapStepY_x_fields mr w _ _).2.1, snapStepX_snappedX, hx]
            simp [h]
          have h2 : (snapStepY mr w (outerBoundsCm other g other.xCm other.yCm)
              (snapStepX mr w (outerBoundsCm other g other.xCm other.yCm) st)).sx =
                st.sx := by
            rw [(snapStepY_x_fields mr w _ _).1,
              snapStepX_sx_of_none mr w _ st hx]
          obtain ⟨ihiff, ihsx⟩ := ih _ h1
          rw [h2] at ihiff ihsx
          constructor
          · rw [ihiff]
            constructor
            · rintro ⟨r, hr, hhit⟩
              exact ⟨r, List.mem_cons_of_mem _ hr, hhit⟩
            · rintro ⟨r, hr, hhit⟩
              rcases List.mem_cons.mp hr with rfl | hr'
              · exact absurd ((snapXAttempts_isSome mr w st.sx _).mpr hhit)
                  (by rw [hx]; simp)
              · exact ⟨r, hr', hhit⟩
          · exact ihsx

/-- Helper: the Y analogue of the X loop characterisation. -/
theorem foldl_y_char (mr : Room) (w : WallSides) (g : ℚ) (l : List Room) :
    ∀ st : SnapState, st.snappedY = false →
      ((List.foldl (calculateSnapStep mr w g) st l).snappedY = true ↔
        ∃ other ∈ l, yEdgeHit mr w st.sy
          (outerBoundsCm other g other.xCm other.yCm)) ∧
      ((List.foldl (calculateSnapStep mr w g) st l).snappedY = false →
        (List.foldl (calculateSnapStep mr w g) st l).sy = st.sy) := by
  induction l with
  | nil =>
      intro st h
      refine ⟨by simp [h], fun _ => rfl⟩
  | cons other rest ih =>
      intro st h
      rw [List.foldl_cons, calculateSnapStep_eq]
      have hxf := snapStepX_y_fields mr w
        (outerBoundsCm other g other.xCm other.yCm) st
      cases hy : snapYAttempts mr w st.sy
          (outerBoundsCm other g other.xCm other.yCm) with
      | some v =>
          rw [snapStepY_of_some mr w _ _ v (by rw [hxf.2.1, h])
            (by rw [hxf.1, hy])]
          have hsnapped : ({ snapStepX mr w
              (outerBoundsCm other g other.xCm other.yCm) st with
              sy := v.1, snappedY := true, yGuide := some v.2 } :
                SnapState).snappedY = true := rfl
          obtain ⟨hst, _⟩ := foldl_snapY_stable mr w g rest _ hsnapped
          refine ⟨?_, fun habs => by rw [hst] at habs; cases habs⟩
          rw [hst]
          simp only [true_iff]
          exact ⟨other, by simp,
            (snapYAttempts_isSome mr w st.sy _).mp (by rw [hy]; rfl)⟩
      | none =>
          have h1 : (snapStepY mr w (outerBoundsCm other g other.xCm other.yCm)
              (snapStepX mr w (outerBoundsCm other g other.xCm other.yCm) st)).snappedY =
                false := by
            rw [snapStepY_snappedY, hxf.2.1, hxf.1, hy]
            simp [h]
          have h2 : (snapStepY mr w (outerBoundsCm other g other.xCm other.yCm)
              (snapStepX mr w (outerBoundsCm other g other.xCm other.yCm) st)).sy =
                st.sy := by
            rw [snapStepY_sy_of_none mr w _ _ (by rw [hxf.1, hy]), hxf.1]
          obtain ⟨ihiff, ihsy⟩ := ih _ h1
          rw [h2] at ihiff ihsy
          constructor
          · rw [ihiff]
            constructor
            · rintro ⟨r, hr, hhit⟩
              exact ⟨r, List.mem_cons_of_mem _ hr, hhit⟩
            · rintro ⟨r, hr, hhit⟩
              rcases List.mem_cons.mp hr with rfl | hr'
              · exact absurd ((snapYAttempts_isSome mr w st.sy _).mpr hhit)
                  (by rw [hy]; simp)
              · exact ⟨r, hr', hhit⟩
          · exact ihsy

/-- C4: in `calculateSnap` an axis snaps exactly when some other room (the
moving room itself excluded) has an outer edge within the inclusive 2 cm
tolerance of one of the moving room's outer edges on that axis, the
distances being taken at the unmodified candidate position; on an axis with
no such room the returned coordinate is the unmodified candidate and the
snap flag is false. -/
theorem calculateSnap_tolerance (movingRoom : Room) (allRooms : List Room)
    (tx ty g : ℚ) :
    ((calculateSnap movingRoom allRooms tx ty g).snappedX = true ↔
      ∃ other ∈ allRooms.filter (fun r => r.id ≠ movingRoom.id),
        xEdgeHit movingRoom (getWallThicknessCm movingRoom g) tx
          (outerBoundsCm other g other.xCm other.yCm)) ∧
    ((calculateSnap movingRoom allRooms tx ty g).snappedX = false →
      (calculateSnap movingRoom allRooms tx ty g).xCm = tx) ∧
    ((calculateSnap movingRoom allRooms tx ty g).snappedY = true ↔
      ∃ other ∈ allRooms.filter (fun r => r.id ≠ movingRoom.id),
        yEdgeHit movingRoom (getWallThicknessCm movingRoom g) ty
          (outerBoundsCm other g other.xCm other.yCm)) ∧
    ((calculateSnap movingRoom allRooms tx ty g).snappedY = false →
      (calculateSnap movingRoom allRooms tx ty g).yCm = ty) := by
  have hx := foldl_x_char movingRoom (getWallThicknessCm movingRoom g) g
    (allRooms.filter (fun r => r.id ≠ movingRoom.id))
    { sx := tx, sy := ty, snappedX := false, snappedY := false
      xGuide := none, yGuide := none } rfl
  have hy := foldl_y_char movingRoom (getWallThicknessCm movingRoom g) g
    (allRooms.filter (fun r => r.id ≠ movingRoom.id))
    { sx := tx, sy := ty, snappedX := false, snappedY := false
      xGuide := none, yGuide := none } rfl
  exact ⟨hx.1, hx.2, hy.1, hy.2⟩

/-- Witness for C4: moving `roomA` (walls 12 cm) so that its outer left
edge sits exactly 2.0 cm from `roomB`'s outer right edge (x = 126) snaps,
while 2.01 cm (x = 126.01) does not and the candidate x is returned
unchanged; the Y axis, far from every edge, is returned unchanged and
unsnapped. -/
theorem calculateSnap_tolerance_witness :
    (calculateSnap roomA [roomA, roomB] 126 1000 12).snappedX = true ∧
    (calculateSnap roomA [roomA, roomB] (12601/100) 1000 12).snappedX = false ∧
    (calculateSnap roomA [roomA, roomB] (12601/100) 1000 12).xCm = 12601/100 ∧
    (calculateSnap roomA [roomA, roomB] 126 1000 12).snappedY = false ∧
    (calculateSnap roomA [roomA, roomB] 126 1000 12).yCm = 1000 := by
  have hsnap := calculateSnap_tolerance roomA [roomA, roomB] 126 1000 12
  have hfar := calculateSnap_tolerance roomA [roomA, roomB] (12601/100) 1000 12
  have hfilter : [roomA, roomB].filter (fun r => r.id ≠ roomA.id) = [roomB] := by
    decide
  have hmem : roomB ∈ [roomA, roomB].filter (fun r => r.id ≠ roomA.id) := by
    rw [hfilter]
    exact List.mem_singleton.mpr rfl
  have hhit : xEdgeHit roomA (getWallThicknessCm roomA 12) 126
      (outerBoundsCm roomB 12 roomB.xCm roomB.yCm) := by
    unfold xEdgeHit
    left
    norm_num [getWallThicknessCm, outerBoundsCm, roomA, roomB, SNAP_TOLERANCE_CM]
  have hX : (calculateSnap roomA [roomA, roomB] 126 1000 12).snappedX = true :=
    hsnap.1.mpr ⟨roomB, hmem, hhit⟩
  have hnoY : ¬ ∃ other ∈ [roomA, roomB].filter (fun r => r.id ≠ roomA.id),
      yEdgeHit roomA (getWallThicknessCm roomA 12) 1000
        (outerBoundsCm other 12 other.xCm other.yCm) := by
    rintro ⟨r, hr, hhit⟩
    rw [hfilter] at hr
    rw [List.mem_singleton.mp hr] at hhit
    norm_num [yEdgeHit, getWallThicknessCm, outerBoundsCm, roomA, roomB,
      SNAP_TOLERANCE_CM] at hhit
  have hY : (calculateSnap roomA [roomA, roomB] 126 1000 12).snappedY = false := by
    cases hb : (calculateSnap roomA [roomA, roomB] 126 1000 12).snappedY
    · rfl
    · exact absurd (hsnap.2.2.1.mp hb) hnoY
  have hnoX : ¬ ∃ other ∈ [roomA, roomB].filter (fun r => r.id ≠ roomA.id),
      xEdgeHit roomA (getWallThicknessCm roomA 12) (12601/100)
        (outerBoundsCm other 12 other.xCm other.yCm) := by
    rintro ⟨r, hr, hhit⟩
    rw [hfilter] at hr
    rw [List.mem_singleton.mp hr] at hhit
    norm_num [xEdgeHit, getWallThicknessCm, outerBoundsCm, roomA, roomB,
      SNAP_TOLERANCE_CM, abs_le] at hhit
  have hX' : (calculateSnap roomA [roomA, roomB] (12601/100) 1000 12).snappedX =
      false := by
    cases hb : (calculateSnap roomA [roomA, roomB] (12601/100) 1000 12).snappedX
    · rfl
    · exact absurd (hfar.1.mp hb) hnoX
  exact ⟨hX, hX', hfar.2.1 hX', hY, hsnap.2.2.2 hY⟩

end OpenHome
